import Mathlib

/-!
Shallow embedding of the context-propagating structured-logging subsystem of
`src/servers.js` (the pino + AsyncLocalStorage part of the file, lines 41-174).

Modelling conventions:
* pino loggers are pure values: a logger is its list of bound context fields;
  `parent.child(data)` appends `data` (later entries shadow earlier ones, as in
  pino's object merge, so field lookup is last-wins).
* an `AsyncLocalStorage` store is a `Map` from string keys to loggers; only the
  key "logger" is ever used.  `Map.prototype.set` replaces the entry for a key;
  we model it by prepending together with a first-match `get`, which is
  observably the same.
* a computation running inside an ambient async context is a function of the
  current store (`Option Store`, `none` = no store installed for this chain)
  returning an `Except` result together with the log records it emitted, in
  order.  `asyncLocalStorage.run(store, cb)` runs `cb` with that store
  installed; code sequenced after it in the same chain still sees the outer
  store, which is exactly AsyncLocalStorage's scoping contract.
-/

namespace TestNodeLog

/-- Loggable values: strings (request ids, messages) and numbers (user ids,
status codes, durations). -/
inductive LVal : Type where
  | str : String → LVal
  | num : Int → LVal
deriving DecidableEq

/-- Context / payload fields of a log record, ordered; later entries shadow
earlier ones on the same key (pino merge semantics). -/
abbrev Fields := List (String × LVal)

/-- Last-wins lookup, matching pino's object merge where later-bound keys
override earlier ones. -/
def Fields.get : Fields → String → Option LVal
  | [], _ => none
  | (k, v) :: rest, key =>
    match Fields.get rest key with
    | some w => some w
    | none => if k = key then some v else none

/-- Option fallback used to state shadowing laws: take `x` if present, else
`y`. -/
def orOpt (x y : Option LVal) : Option LVal :=
  match x with
  | some v => some v
  | none => y

/-- A pino logger: the context fields it emits on every record.  The base
logger `pino()` has no bound fields. -/
structure Logger : Type where
  bindings : Fields
deriving DecidableEq

/-- The process base logger, `const logger = pino()` (src/servers.js line 50). -/
def baseLogger : Logger := ⟨[]⟩

/-- pino `parent.child(data)`: a new logger whose bindings are the parent's
plus `data`, `data` winning on key collision (pure construction; the parent
is not modified). -/
def Logger.child (l : Logger) (data : Fields) : Logger :=
  ⟨l.bindings ++ data⟩

/-- pino log levels. -/
inductive Level : Type where
  | trace | debug | info | warn | error | fatal
deriving DecidableEq

/-- A structured log record: severity, the context bindings of the logger that
emitted it, the call-site payload, and the message. -/
structure LogRecord : Type where
  level : Level
  bindings : Fields
  payload : Fields
  msg : String
deriving DecidableEq

/-- Emission of one record by a logger, e.g. `l.info(payload, msg)`. -/
def Logger.emit (l : Logger) (lv : Level) (payload : Fields) (msg : String) :
    LogRecord :=
  ⟨lv, l.bindings, payload, msg⟩

/-- An AsyncLocalStorage store: a `Map` from string keys to loggers (only the
key "logger" is used by the program). -/
abbrev Store := List (String × Logger)

/-- Map lookup (first match; `Store.set` prepends, so this realizes
replace-on-set Map semantics). -/
def Store.get : Store → String → Option Logger
  | [], _ => none
  | (k, v) :: rest, key => if k = key then some v else Store.get rest key

/-- Map `set`: the new entry shadows any previous entry for the key. -/
def Store.set (st : Store) (k : String) (v : Logger) : Store :=
  (k, v) :: st

/-- The logger selected by `asyncLocalStorage.getStore()?.get("logger") ||
logger`: the ambient store's "logger" entry when a store is installed and has
one, else the base logger (src/servers.js lines 61 and 133). -/
def getLoggerOf (s : Option Store) : Logger :=
  match s with
  | none => baseLogger
  | some st =>
    match st.get "logger" with
    | some l => l
    | none => baseLogger

/-- A computation running in an ambient async context: reads the current
store, returns a result or a raised/rejected error, and emits log records in
order. -/
def LogM (α : Type) : Type :=
  Option Store → Except String α × List LogRecord

/-- Computation returning a value and emitting nothing. -/
def LogM.pure (a : α) : LogM α := fun _ => (Except.ok a, [])

/-- Sequencing in one chain: the continuation sees the same ambient store; a
raised error short-circuits it (an un-caught rejection skips the rest of the
chain). -/
def LogM.bind (m : LogM α) (f : α → LogM β) : LogM β := fun s =>
  match m s with
  | (Except.ok a, logs) =>
    let r := f a s
    (r.1, logs ++ r.2)
  | (Except.error e, logs) => (Except.error e, logs)

/-- Caller code that runs after `m` regardless of whether `m` failed (e.g. the
caller never awaited `m`, or caught its rejection).  Used to observe the
ambient state a failed unit of work leaves behind. -/
def LogM.andAlso (m : LogM α) (k : LogM β) : LogM β := fun s =>
  let r := m s
  let r2 := k s
  (r2.1, r.2 ++ r2.2)

/-- `getLogger()` (src/servers.js lines 131-134): the ambient logger accessor.
Returns the store's logger when one is installed, else the base logger; it is
a total function — it never fails and emits nothing. -/
def getLogger : LogM Logger := fun s => (Except.ok (getLoggerOf s), [])

/-- Handler code `getLogger().<lv>(payload, msg)`: emits one record through
the ambient logger. -/
def emitVia (lv : Level) (payload : Fields) (msg : String) : LogM Unit :=
  fun s => (Except.ok (), [(getLoggerOf s).emit lv payload msg])

/-- The store `withLogContext` installs for its callback: a fresh copy of the
current store (`new Map(store)`; `new Map(undefined)` is the empty map) whose
"logger" entry is replaced by the child logger derived from the ambient
(or base) logger and `data` (src/servers.js lines 59-69). -/
def childStore (s : Option Store) (data : Fields) : Store :=
  Store.set (s.getD []) "logger" ((getLoggerOf s).child data)

/-- `withLogContext(data, callback)` (src/servers.js lines 58-73): derives a
child logger from the ambient (or base) logger and `data`, installs a fresh
copy of the ambient store with that logger, and returns
`asyncLocalStorage.run(newStore, callback)`'s result unchanged. -/
def withLogContext (data : Fields) (cb : LogM α) : LogM α := fun _s =>
  cb (some (childStore _s data))

/-- The correlation identifier chosen by the middleware,
`req.headers["x-request-id"] || randomUUID()` (src/servers.js line 84): the
header value when present and non-empty (the empty string is falsy in JS),
else the freshly generated UUID. -/
def requestIdOf (header : Option String) (freshId : String) : String :=
  match header with
  | some h => if h = "" then freshId else h
  | none => freshId

/-- The request-scoped logger captured by the middleware closure,
`logger.child({"request.id": requestId})` (src/servers.js lines 89-91). -/
def reqLogger (requestId : String) : Logger :=
  baseLogger.child [("request.id", LVal.str requestId)]

/-- The entry record the middleware emits (src/servers.js lines 93-101). -/
def entryRecord (requestId method url ip userAgent : String) : LogRecord :=
  (reqLogger requestId).emit Level.info
    [("http.request.method", LVal.str method),
     ("url.path", LVal.str url),
     ("client.address", LVal.str ip),
     ("user_agent.original", LVal.str userAgent)]
    ("incoming " ++ method ++ " request to " ++ url)

/-- The completion record emitted by the `res.on("finish")` hook
(src/servers.js lines 103-118): `duration_ms` and `status_code` payload, with
severity error for status >= 500, warn for >= 400, info otherwise, emitted
through the closure-captured `reqLogger`. -/
def completionRecord (requestId : String) (durationMs : Int)
    (statusCode : Nat) : LogRecord :=
  let logData : Fields :=
    [("duration_ms", LVal.num durationMs),
     ("status_code", LVal.num (Int.ofNat statusCode))]
  if 500 ≤ statusCode then
    (reqLogger requestId).emit Level.error logData "server error"
  else if 400 ≤ statusCode then
    (reqLogger requestId).emit Level.warn logData "client error"
  else
    (reqLogger requestId).emit Level.info logData "request completed"

/-- The finish hook as a computation in the ambient context: it emits through
the closure-captured `reqLogger`, not through `getLogger()`, so its output is
independent of the ambient store. -/
def finishHook (requestId : String) (durationMs : Int) (statusCode : Nat) :
    LogM Unit :=
  fun _ => (Except.ok (), [completionRecord requestId durationMs statusCode])

/-- The store the middleware installs before calling downstream code: inside
`asyncLocalStorage.run(new Map(), ...)` the fresh map receives the request
logger under "logger" (the `getStore().set("logger", reqLogger)` call mutates
the just-created, still-unshared map, so it equals installing the updated
map), and `withLogContext({"request.id": requestId}, next)` then derives the
store `next` actually runs under (src/servers.js lines 120-128). -/
def handlerStore (requestId : String) : Store :=
  childStore (some (Store.set [] "logger" (reqLogger requestId)))
    [("request.id", LVal.str requestId)]

/-- How a response terminates, as exposed by the external response object:
either the response is fully sent (Node emits "finish" exactly once), or the
underlying connection closes before that (Node emits "close" and never
"finish"). -/
inductive ResTermination : Type where
  | finished : Nat → ResTermination
  | closedEarly : ResTermination
deriving DecidableEq

/-- Number of times a hook registered with `res.on("finish", ...)` runs for a
given termination: once when the response finishes, never when the connection
closes before the response is sent (Node `http.ServerResponse` event
semantics). -/
def finishEventCount : ResTermination → Nat
  | ResTermination.finished _ => 1
  | ResTermination.closedEarly => 0

/-- The completion records a request's `res.on("finish")` hook emits, given
how the response terminates: one per firing of the "finish" event. -/
def completionRecords (requestId : String) (durationMs : Int)
    (t : ResTermination) : List LogRecord :=
  match t with
  | ResTermination.finished statusCode =>
    [completionRecord requestId durationMs statusCode]
  | ResTermination.closedEarly => []

/-- One handler step of a request chain: an emission through the ambient
logger accessor. -/
structure EmitOp : Type where
  level : Level
  payload : Fields
  msg : String
deriving DecidableEq

/-- The state of one request chain suspended on the event loop: the
AsyncLocalStorage store its continuations were captured under, and the
remaining handler steps. -/
structure ChainState : Type where
  store : Option Store
  pending : List EmitOp
deriving DecidableEq

/-- Resume a chain for one step: its next emission runs with the chain's own
captured store (AsyncLocalStorage restores the captured context on every
resumption of the same chain). -/
def stepChain (c : ChainState) : ChainState × List LogRecord :=
  match c.pending with
  | [] => (c, [])
  | op :: rest =>
    (⟨c.store, rest⟩, [(getLoggerOf c.store).emit op.level op.payload op.msg])

/-- Interleaved execution of two request chains on the single-threaded event
loop: the schedule picks which chain runs its next step (`true` = first
chain); records are tagged with the chain that emitted them. -/
def interleave : List Bool → ChainState → ChainState →
    List (Bool × LogRecord)
  | [], _, _ => []
  | true :: sch, c1, c2 =>
    (stepChain c1).2.map (fun rec => (true, rec)) ++
      interleave sch (stepChain c1).1 c2
  | false :: sch, c1, c2 =>
    (stepChain c2).2.map (fun rec => (false, rec)) ++
      interleave sch c1 (stepChain c2).1

/-- The outcome of the external `fetch` call made by `fetchUser`: the
response's `ok` flag, status, status text, and parsed JSON body. -/
structure FetchResponse : Type where
  ok : Bool
  status : Nat
  statusText : String
  jsonBody : LVal
deriving DecidableEq

/-- `fetchUser(id)` (src/servers.js lines 137-154): throws when the response
is not ok, else logs through the ambient logger accessor and returns the
user. -/
def fetchUser (resp : FetchResponse) (id : Nat) : LogM LVal := fun s =>
  if resp.ok then
    (Except.ok resp.jsonBody,
     [(getLoggerOf s).emit Level.info []
        ("profile info for user " ++ toString id ++ " retrieved successfully")])
  else
    (Except.error
       ("Failed to fetch user: " ++ toString resp.status ++ " " ++
         resp.statusText), [])

/-- The async callback the `/fetch-user` handler passes to `withLogContext`
(src/servers.js lines 164-168): log "fetching user data", await `fetchUser`,
then send the JSON response (the returned `true` marks that `res.json` ran;
a rejection of `fetchUser` short-circuits it). -/
def fetchUserBody (resp : FetchResponse) (userID : Nat) : LogM Bool :=
  LogM.bind (emitVia Level.info [] "fetching user data") (fun _ =>
    LogM.bind (fetchUser resp userID) (fun _ =>
      LogM.pure true))

/-- Observable outcome of one `/fetch-user` request. -/
structure RouteOutcome : Type where
  /-- Settlement of the promise returned by `withLogContext`.  The handler
  neither awaits it nor attaches a rejection handler (src/servers.js line
  164), so an error here escapes as an unhandled promise rejection. -/
  innerResult : Except String Bool
  /-- Whether `res.json` was reached. -/
  jsonSent : Bool
  /-- Records emitted during the request. -/
  records : List LogRecord
  /-- The handler function itself returns normally without awaiting or
  catching the inner promise, whatever that promise does. -/
  handlerReturned : Bool

/-- The `/fetch-user` route handler (src/servers.js lines 158-169), run with
ambient store `s`: fire-and-forget `withLogContext({"user.id": userID},
body)`. -/
def fetchUserRoute (resp : FetchResponse) (userID : Nat)
    (s : Option Store) : RouteOutcome :=
  let r := withLogContext [("user.id", LVal.num (Int.ofNat userID))]
    (fetchUserBody resp userID) s
  { innerResult := r.1
    jsonSent := match r.1 with | Except.ok b => b | Except.error _ => false
    records := r.2
    handlerReturned := true }

/-! Helper lemmas shared by the claim theorems. -/

/-- Field lookup over an append: the right-hand (later-bound) fields win. -/
theorem fields_get_append (a b : Fields) (k : String) :
    Fields.get (a ++ b) k = orOpt (Fields.get b k) (Fields.get a k) := by
  induction a with
  | nil => cases hb : Fields.get b k <;> simp [orOpt, Fields.get, hb]
  | cons hd tl ih =>
    obtain ⟨k0, v0⟩ := hd
    simp only [List.cons_append, Fields.get, List.append_eq]
    rw [ih]
    cases hb : Fields.get b k <;> cases ha : Fields.get tl k <;>
      simp [orOpt, hb, ha]

/-- Resuming a chain never changes its captured store. -/
theorem stepChain_store (c : ChainState) : (stepChain c).1.store = c.store := by
  cases c with
  | mk st p => cases p <;> rfl

/-- Every record a chain emits during an interleaved run carries the bindings
of that chain's own captured logger, whatever the schedule. -/
theorem interleave_bindings (sch : List Bool) (c1 c2 : ChainState)
    (tag : Bool) (r : LogRecord)
    (h : (tag, r) ∈ interleave sch c1 c2) :
    r.bindings = (getLoggerOf (cond tag c1.store c2.store)).bindings := by
  induction sch generalizing c1 c2 with
  | nil => simp [interleave] at h
  | cons pick rest ih =>
    cases pick with
    | true =>
      rw [interleave, List.mem_append] at h
      rcases h with h | h
      · rcases List.mem_map.mp h with ⟨rec, hrec, heq⟩
        obtain ⟨rfl, rfl⟩ := (Prod.mk.injEq _ _ _ _).mp heq
        cases hc : c1.pending with
        | nil => rw [stepChain, hc] at hrec; simp at hrec
        | cons op rest2 =>
          rw [stepChain, hc] at hrec
          simp at hrec
          simp [hrec, Logger.emit]
      · have := ih (stepChain c1).1 c2 h
        rwa [stepChain_store] at this
    | false =>
      rw [interleave, List.mem_append] at h
      rcases h with h | h
      · rcases List.mem_map.mp h with ⟨rec, hrec, heq⟩
        obtain ⟨rfl, rfl⟩ := (Prod.mk.injEq _ _ _ _).mp heq
        cases hc : c2.pending with
        | nil => rw [stepChain, hc] at hrec; simp at hrec
        | cons op rest2 =>
          rw [stepChain, hc] at hrec
          simp at hrec
          simp [hrec, Logger.emit]
      · have := ih c1 (stepChain c2).1 h
        rwa [stepChain_store] at this

/-- The ambient logger a request handler runs under, as installed by the
middleware: the request logger re-bound with `request.id` by
`withLogContext`. -/
theorem handlerStore_logger (rid : String) :
    getLoggerOf (some (handlerStore rid)) =
      Logger.mk [("request.id", LVal.str rid), ("request.id", LVal.str rid)] := by
  simp [handlerStore, childStore, getLoggerOf, Store.get, Store.set, reqLogger,
    baseLogger, Logger.child]

/-- C1: for two requests whose handler chains run interleaved on the same
event loop under the stores the middleware installs, every record a chain
emits through the ambient logger carries that chain's own `request.id` and
never the other's, for every schedule of interleaving (each resumption runs
under the chain's own captured store, so neither chain observes the other's
binding). -/
theorem c1_request_isolation (rid1 rid2 : String) (ops1 ops2 : List EmitOp)
    (sch : List Bool) (hne : rid1 ≠ rid2) :
    (∀ r : LogRecord,
      (true, r) ∈ interleave sch ⟨some (handlerStore rid1), ops1⟩
          ⟨some (handlerStore rid2), ops2⟩ →
      Fields.get r.bindings "request.id" = some (LVal.str rid1) ∧
      Fields.get r.bindings "request.id" ≠ some (LVal.str rid2)) ∧
    (∀ r : LogRecord,
      (false, r) ∈ interleave sch ⟨some (handlerStore rid1), ops1⟩
          ⟨some (handlerStore rid2), ops2⟩ →
      Fields.get r.bindings "request.id" = some (LVal.str rid2) ∧
      Fields.get r.bindings "request.id" ≠ some (LVal.str rid1)) := by
  constructor
  · intro r h
    have hb := interleave_bindings sch _ _ true r h
    simp only [cond_true, cond_false] at hb
    rw [handlerStore_logger] at hb
    rw [hb]
    refine ⟨by simp [Fields.get], ?_⟩
    simp only [Fields.get]
    intro hcontra
    simp at hcontra
    exact hne hcontra
  · intro r h
    have hb := interleave_bindings sch _ _ false r h
    simp only [cond_true, cond_false] at hb
    rw [handlerStore_logger] at hb
    rw [hb]
    refine ⟨by simp [Fields.get], ?_⟩
    simp only [Fields.get]
    intro hcontra
    simp at hcontra
    exact hne hcontra.symm

/-- Witness for C1 at a concrete pair of requests and schedule. -/
theorem c1_request_isolation_witness :
    Fields.get (LogRecord.mk Level.info
      [("request.id", LVal.str "a"), ("request.id", LVal.str "a")] []
      "hello").bindings "request.id" = some (LVal.str "a") :=
  ((c1_request_isolation "a" "b" [⟨Level.info, [], "hello"⟩] [] [true]
      (by decide)).1
    (LogRecord.mk Level.info
      [("request.id", LVal.str "a"), ("request.id", LVal.str "a")] [] "hello")
    (by decide)).1

/-- C3: nested `withLogContext(f1, () => withLogContext(f2, work))` emits
records carrying the enclosing scope's fields plus the union of `f1` and
`f2`, with `f2` winning on any key collision, and the innermost binding's
logger is what downstream `getLogger()` observes. -/
theorem c3_nested_bind_union (s : Option Store) (f1 f2 payload : Fields)
    (msg : String) :
    ((withLogContext f1 (withLogContext f2 (emitVia Level.info payload msg))
        s).2 =
      [⟨Level.info, ((getLoggerOf s).bindings ++ f1) ++ f2, payload, msg⟩]) ∧
    (∀ k : String,
      Fields.get (((getLoggerOf s).bindings ++ f1) ++ f2) k =
        orOpt (Fields.get f2 k)
          (orOpt (Fields.get f1 k)
            (Fields.get (getLoggerOf s).bindings k))) ∧
    ((withLogContext f1 (withLogContext f2 getLogger) s).1 =
      Except.ok (((getLoggerOf s).child f1).child f2)) := by
  refine ⟨?_, ?_, ?_⟩
  · simp [withLogContext, emitVia, childStore, getLoggerOf, Store.get,
      Store.set, Logger.child, Logger.emit]
  · intro k
    rw [fields_get_append, fields_get_append]
  · simp [withLogContext, getLogger, childStore, getLoggerOf, Store.get,
      Store.set, Logger.child]

/-- C4: the completion record's severity is error exactly when the status
code is at least 500, warn exactly when it is in [400, 500), and info exactly
when it is below 400, with the boundary cases 200, 399, 400, 404, 499, 500
mapped accordingly. -/
theorem c4_severity_mapping (rid : String) (d : Int) (code : Nat) :
    ((completionRecord rid d code).level = Level.error ↔ 500 ≤ code) ∧
    ((completionRecord rid d code).level = Level.warn ↔
      (400 ≤ code ∧ code < 500)) ∧
    ((completionRecord rid d code).level = Level.info ↔ code < 400) ∧
    (completionRecord rid d 200).level = Level.info ∧
    (completionRecord rid d 399).level = Level.info ∧
    (completionRecord rid d 400).level = Level.warn ∧
    (completionRecord rid d 404).level = Level.warn ∧
    (completionRecord rid d 499).level = Level.warn ∧
    (completionRecord rid d 500).level = Level.error := by
  refine ⟨?_, ?_, ?_, ?_, ?_, ?_, ?_, ?_, ?_⟩ <;>
    (by_cases h5 : 500 ≤ code <;> by_cases h4 : 400 ≤ code <;>
      simp [completionRecord, Logger.emit, h5, h4] <;> omega)

/-- C5: the ambient logger accessor returns the base logger when no store is
installed or the store has no "logger" entry, returns the store's logger when
present, and is total (it never fails and emits nothing). -/
theorem c5_getLogger_fallback :
    getLoggerOf none = baseLogger ∧
    (∀ st : Store, Store.get st "logger" = none →
      getLoggerOf (some st) = baseLogger) ∧
    (∀ (st : Store) (l : Logger), Store.get st "logger" = some l →
      getLoggerOf (some st) = l) ∧
    (∀ s : Option Store, getLogger s = (Except.ok (getLoggerOf s), [])) := by
  refine ⟨rfl, ?_, ?_, fun _ => rfl⟩
  · intro st h
    simp [getLoggerOf, h]
  · intro st l h
    simp [getLoggerOf, h]

/-- Witness for C5 at the empty store and at a store carrying a logger. -/
theorem c5_getLogger_fallback_witness :
    getLoggerOf (some []) = baseLogger ∧
    getLoggerOf (some [("logger", reqLogger "r")]) = reqLogger "r" :=
  ⟨c5_getLogger_fallback.2.1 [] rfl,
   c5_getLogger_fallback.2.2.1 [("logger", reqLogger "r")] (reqLogger "r")
     (by simp [Store.get])⟩

/-- C6: the correlation identifier equals the `x-request-id` header when
present and non-empty, and is otherwise the freshly generated identifier —
non-empty and distinct from any other fresh one whenever the generator's
outputs are (the UUID contract); the entry record carries it under
`request.id`. -/
theorem c6_request_id (h freshId freshId2 m u i ua : String)
    (hne : h ≠ "") (hfresh : freshId ≠ "") (hdiff : freshId ≠ freshId2) :
    requestIdOf (some h) freshId = h ∧
    requestIdOf none freshId = freshId ∧
    requestIdOf (some "") freshId = freshId ∧
    requestIdOf none freshId ≠ "" ∧
    requestIdOf none freshId ≠ requestIdOf none freshId2 ∧
    Fields.get (entryRecord (requestIdOf (some h) freshId) m u i
        ua).bindings "request.id" = some (LVal.str h) ∧
    Fields.get (entryRecord (requestIdOf none freshId) m u i
        ua).bindings "request.id" = some (LVal.str freshId) := by
  refine ⟨?_, rfl, rfl, hfresh, hdiff, ?_, ?_⟩ <;>
    simp [requestIdOf, hne, entryRecord, reqLogger, baseLogger, Logger.child,
      Logger.emit, Fields.get]

/-- Witness for C6 at the spec's own scenario inputs. -/
theorem c6_request_id_witness :
    requestIdOf (some "abc-123") "uuid-1" = "abc-123" ∧
    requestIdOf none "uuid-1" ≠ requestIdOf none "uuid-2" := by
  have hc := c6_request_id "abc-123" "uuid-1" "uuid-2" "GET" "/" "::1" "ua"
    (by decide) (by decide) (by decide)
  exact ⟨hc.1, hc.2.2.2.2.1⟩

/-- C2 counterexample: when the request's underlying connection closes before
the response finishes, the hook registered with `res.on("finish", ...)` never
runs, so zero completion records are emitted — not exactly one as claimed. -/
theorem c2_completion_cex :
    ¬ (completionRecords "req-1" 5 ResTermination.closedEarly).length = 1 := by
  decide

/-- C2 (amended): the `res.on("finish")` hook fires once per "finish" event,
so at most one completion record is emitted per request; exactly one when the
response finishes (whatever the status code, handler success and failure
alike), and none when the connection closes before the response finishes. -/
theorem c2_completion_at_most_once (rid : String) (d : Int)
    (t : ResTermination) :
    (completionRecords rid d t).length = finishEventCount t ∧
    (completionRecords rid d t).length ≤ 1 ∧
    (∀ code : Nat, t = ResTermination.finished code →
      completionRecords rid d t = [completionRecord rid d code]) ∧
    (t = ResTermination.closedEarly → completionRecords rid d t = []) := by
  cases t <;> simp [completionRecords, finishEventCount]

/-- Witness for the amended C2 at a normally finished response. -/
theorem c2_completion_at_most_once_witness :
    completionRecords "req-1" 5 (ResTermination.finished 200) =
      [completionRecord "req-1" 5 200] :=
  (c2_completion_at_most_once "req-1" 5 (ResTermination.finished 200)).2.2.1
    200 rfl

/-- C7: `withLogContext` returns the unit of work's result unchanged —
success and raised/rejected failure alike — emits nothing of its own beyond
what the unit of work emits, and caller code running afterwards in the
enclosing chain still observes the enclosing ambient logger even when the
unit of work failed. -/
theorem c7_binder_transparent (data : Fields) (cb : LogM α)
    (s : Option Store) :
    (∀ v : α, (cb (some (childStore s data))).1 = Except.ok v →
      (withLogContext data cb s).1 = Except.ok v) ∧
    (∀ e : String, (cb (some (childStore s data))).1 = Except.error e →
      (withLogContext data cb s).1 = Except.error e) ∧
    ((withLogContext data cb s).2 = (cb (some (childStore s data))).2) ∧
    ((LogM.andAlso (withLogContext data cb) getLogger s).1 =
      Except.ok (getLoggerOf s)) := by
  exact ⟨fun _ hv => hv, fun _ he => he, rfl, rfl⟩

/-- Witness for C7 with a unit of work that rejects. -/
theorem c7_binder_transparent_witness :
    (withLogContext [("user.id", LVal.num 7)]
      (fun _ => ((Except.error "boom" : Except String Unit), []))
      none).1 = Except.error "boom" :=
  (c7_binder_transparent [("user.id", LVal.num 7)]
    (fun _ => ((Except.error "boom" : Except String Unit), [])) none).2.1
    "boom" rfl

/-- C8: binding never mutates the parent chain's state — the child logger is
the pure derivation `parent.child(data)` placed in a fresh copy of the store
that preserves every other key, and once the bound work completes the
enclosing chain's `getLogger()` still observes the original logger. -/
theorem c8_no_parent_mutation (data : Fields) (s : Option Store)
    (cb : LogM α) :
    (Store.get (childStore s data) "logger" =
      some ((getLoggerOf s).child data)) ∧
    (((getLoggerOf s).child data).bindings =
      (getLoggerOf s).bindings ++ data) ∧
    (∀ k : String, k ≠ "logger" →
      Store.get (childStore s data) k = Store.get (s.getD []) k) ∧
    (∀ v : α, (cb (some (childStore s data))).1 = Except.ok v →
      (LogM.bind (withLogContext data cb) (fun _ => getLogger) s).1 =
        Except.ok (getLoggerOf s)) := by
  refine ⟨by simp [childStore, Store.set, Store.get], rfl, ?_, ?_⟩
  · intro k hk
    simp only [childStore, Store.set, Store.get]
    rw [if_neg (fun hh => hk hh.symm)]
  · intro v hv
    simp only [LogM.bind, withLogContext]
    rcases hcb : cb (some (childStore s data)) with ⟨res, logs⟩
    rw [hcb] at hv
    simp only at hv
    rw [hv]
    rfl

/-- Witness for C8 at concrete fields, store and unit of work. -/
theorem c8_no_parent_mutation_witness :
    (Store.get (childStore none [("user.id", LVal.num 7)]) "request.id" =
      Store.get ((none : Option Store).getD []) "request.id") ∧
    ((LogM.bind (withLogContext [("user.id", LVal.num 7)] (LogM.pure ()))
        (fun _ => getLogger) none).1 = Except.ok (getLoggerOf none)) :=
  ⟨(c8_no_parent_mutation [("user.id", LVal.num 7)] none
      (LogM.pure ())).2.2.1 "request.id" (by decide),
   (c8_no_parent_mutation [("user.id", LVal.num 7)] none
      (LogM.pure ())).2.2.2 () rfl⟩

/-- C9: the completion record is emitted through the closure-captured request
logger, so its context bindings are exactly `request.id`, its payload exactly
`duration_ms` and `status_code`, it carries no `user.id` from handler-nested
bindings, and the finish hook's output is independent of the ambient store. -/
theorem c9_completion_fields (rid : String) (d : Int) (code : Nat) :
    (completionRecord rid d code).bindings =
      [("request.id", LVal.str rid)] ∧
    (completionRecord rid d code).payload =
      [("duration_ms", LVal.num d),
       ("status_code", LVal.num (Int.ofNat code))] ∧
    Fields.get (completionRecord rid d code).bindings "user.id" = none ∧
    Fields.get (completionRecord rid d code).payload "user.id" = none ∧
    (∀ s s' : Option Store,
      finishHook rid d code s = finishHook rid d code s') := by
  refine ⟨?_, ?_, ?_, ?_, fun _ _ => rfl⟩ <;>
    (unfold completionRecord; split <;> (try split) <;>
      simp [Logger.emit, reqLogger, baseLogger, Logger.child, Fields.get])

/-- C10: the `/fetch-user` handler fire-and-forgets the promise returned by
`withLogContext`; when the fetch fails, that promise settles to the thrown
error with no rejection handler attached (an unhandled rejection), `res.json`
is never reached, and the only record emitted is "fetching user data". -/
theorem c10_fetch_user_unhandled (resp : FetchResponse) (userID : Nat)
    (s : Option Store) (hfail : resp.ok = false) :
    (fetchUserRoute resp userID s).innerResult =
      Except.error ("Failed to fetch user: " ++ toString resp.status ++ " " ++
        resp.statusText) ∧
    (fetchUserRoute resp userID s).jsonSent = false ∧
    (fetchUserRoute resp userID s).handlerReturned = true ∧
    (fetchUserRoute resp userID s).records =
      [(getLoggerOf (some (childStore s
          [("user.id", LVal.num (Int.ofNat userID))]))).emit Level.info []
        "fetching user data"] := by
  refine ⟨?_, ?_, rfl, ?_⟩ <;>
    simp [fetchUserRoute, withLogContext, fetchUserBody, LogM.bind, LogM.pure,
      emitVia, fetchUser, hfail]

/-- Witness for C10 at a concrete failed fetch. -/
theorem c10_fetch_user_unhandled_witness :
    (fetchUserRoute ⟨false, 404, "Not Found", LVal.num 0⟩ 3 none).jsonSent =
      false ∧
    (fetchUserRoute ⟨false, 404, "Not Found", LVal.num 0⟩ 3
        none).innerResult =
      Except.error "Failed to fetch user: 404 Not Found" :=
  ⟨(c10_fetch_user_unhandled ⟨false, 404, "Not Found", LVal.num 0⟩ 3 none
      rfl).2.1,
   (c10_fetch_user_unhandled ⟨false, 404, "Not Found", LVal.num 0⟩ 3 none
      rfl).1⟩

end TestNodeLog
